import Mathlib

/-!
Verification development for the `voice-agent-avatar-node` repository.

This file gives a shallow embedding, in Lean 4, of the parts of the
TypeScript source that the verified properties talk about:

* `convertFloat32ToInt16PCM` (client `App.tsx`): base64 Float32 PCM →
  base64 Int16 PCM conversion, with its clamping loop and its
  catch-all fallback that returns the input unchanged;
* `formatAudioTranscript` (client `App.tsx`): display normalisation of
  final user transcripts;
* the `onMessage` packet reducer (client `App.tsx`): chat-history
  reconciliation for `TEXT` packets, latency bookkeeping for
  `AUDIO` / `NEW_INTERACTION` / `USER_SPEECH_COMPLETE` / `TEXT`
  packets, and `AUDIO` routing between the HeyGen bridge and the
  local playback queue;
* `InworldApp.load` and the per-voice graph caches
  (`server/components/app.ts`);
* the module-level capture state of `startRecording` / `stopRecording`
  (`client/src/app/chat/Chat.tsx`).

JavaScript numbers that the code only ever adds, subtracts and compares
are modelled as `Int`; `Float32` samples are modelled exactly as `ℚ`
(every finite IEEE-754 value is rational, and all arithmetic the code
performs on samples — clamping, scaling by 32767, `Math.round` — is
exact in double precision for 32-bit inputs).  JavaScript string/number
falsiness (`undefined`, `""`, `0`) is modelled explicitly where the code
relies on it.
-/

/-! ## JavaScript string primitives

The client code manipulates strings with `trim`, `charAt(0).toUpperCase`
and indexing.  These are modelled structurally on `List Char` so that
they are kernel-computable.  Case mapping is modelled for ASCII (the
transcripts the code formats are ASCII).
-/

/-- Whitespace as recognised by JavaScript `String.prototype.trim`:
the WhiteSpace and LineTerminator productions of ECMA-262, by code point. -/
def jsIsWhitespace (c : Char) : Bool :=
  let n := c.toNat
  n == 0x09 || n == 0x0a || n == 0x0b || n == 0x0c || n == 0x0d || n == 0x20 ||
  n == 0xa0 || n == 0x1680 || (0x2000 <= n && n <= 0x200a) ||
  n == 0x2028 || n == 0x2029 || n == 0x202f || n == 0x205f || n == 0x3000 || n == 0xfeff
/-- JavaScript `s.trim()`: drop whitespace from both ends. -/
def jsTrim (s : String) : String :=
  String.mk (((s.data.dropWhile jsIsWhitespace).reverse.dropWhile jsIsWhitespace).reverse)

/-- Truthiness of a JavaScript string: `""` (and a missing value, which we
encode as `""`) is falsy, every other string is truthy. -/
def strTruthy (s : String) : Bool := s != ""

/-- JavaScript `a || b` on strings: `b` when `a` is falsy. -/
def jsOrStr (a b : String) : String := if strTruthy a then a else b

/-- Truthiness of a JavaScript number that may be `undefined`:
`undefined` and `0` are falsy. -/
def numTruthy : Option Int → Bool
  | none => false
  | some n => n != 0

/-- JavaScript `a || b` on possibly-undefined numbers. -/
def jsOrNum (a b : Option Int) : Option Int := if numTruthy a then a else b

/-! ## Base64 (`atob` / `btoa`)

`convertFloat32ToInt16PCM` decodes its input with `atob`, which
implements the WHATWG forgiving-base64 decode: ASCII whitespace is
stripped, up to two trailing `=` padding characters are allowed when the
length is a multiple of four, a remaining length of 1 mod 4 or any
character outside the base64 alphabet is an error (the thrown
`InvalidCharacterError` is what lands in the function's `catch`). -/

/-- ASCII whitespace stripped by forgiving-base64 decode. -/
def isB64Whitespace (c : Char) : Bool :=
  c == '\x09' || c == '\x0a' || c == '\x0c' || c == '\x0d' || c == ' '

/-- Value of a base64 alphabet character, `none` for anything else. -/
def b64Val (c : Char) : Option Nat :=
  if 'A' ≤ c && c ≤ 'Z' then some (c.toNat - 'A'.toNat)
  else if 'a' ≤ c && c ≤ 'z' then some (c.toNat - 'a'.toNat + 26)
  else if '0' ≤ c && c ≤ '9' then some (c.toNat - '0'.toNat + 52)
  else if c == '+' then some 62
  else if c == '/' then some 63
  else none

/-- Character of a 6-bit value in the base64 alphabet. -/
def b64Char (n : Nat) : Char :=
  (("ABCDEFGHIJKLMNOPQRSTUVWXYZabcdefghijklmnopqrstuvwxyz0123456789+/").data.getD n 'A')

/-- Decode a list of 6-bit values into bytes, four values giving three
bytes, with a final group of two or three values giving one or two
bytes (leftover bits discarded, as in forgiving-base64). -/
def b64DecodeVals : List Nat → List Nat
  | a :: b :: c :: d :: rest =>
      (a * 4 + b / 16) :: ((b % 16) * 16 + c / 4) :: ((c % 4) * 64 + d) :: b64DecodeVals rest
  | [a, b] => [a * 4 + b / 16]
  | [a, b, c] => [a * 4 + b / 16, (b % 16) * 16 + c / 4]
  | [_] => []
  | [] => []

/-- Strip the `=` padding admitted by forgiving-base64: when the input
length is a multiple of four, up to two trailing `=` are removed. -/
def b64StripPad (cs : List Char) : List Char :=
  if cs.length % 4 == 0 then
    match cs.reverse with
    | '=' :: '=' :: rest => rest.reverse
    | '=' :: rest => rest.reverse
    | _ => cs
  else cs

/-- JavaScript `atob`, as a partial function to bytes: `none` models the
`InvalidCharacterError` that `atob` throws on malformed input. -/
def atobBytes (s : String) : Option (List Nat) :=
  let cs := b64StripPad (s.data.filter (fun c => !isB64Whitespace c))
  if cs.length % 4 == 1 then none
  else if cs.any (fun c => (b64Val c).isNone) then none
  else some (b64DecodeVals (cs.map (fun c => (b64Val c).getD 0)))

/-- Encode bytes as base64 characters with `=` padding (JavaScript
`btoa` applied to a binary string). -/
def b64EncodeBytes : List Nat → List Char
  | b1 :: b2 :: b3 :: rest =>
      b64Char (b1 / 4) :: b64Char ((b1 % 4) * 16 + b2 / 16) ::
      b64Char ((b2 % 16) * 4 + b3 / 64) :: b64Char (b3 % 64) :: b64EncodeBytes rest
  | [b1, b2] =>
      [b64Char (b1 / 4), b64Char ((b1 % 4) * 16 + b2 / 16), b64Char ((b2 % 16) * 4), '=']
  | [b1] => [b64Char (b1 / 4), b64Char ((b1 % 4) * 16), '=', '=']
  | [] => []

/-- JavaScript `btoa` of a byte list (the code builds the binary string
byte by byte with `String.fromCharCode`, so it never throws here). -/
def btoaBytes (bs : List Nat) : String := String.mk (b64EncodeBytes bs)

/-! ## IEEE-754 binary32 decoding and the sample conversion

`new Float32Array(bytes.buffer)` reinterprets the decoded bytes as
little-endian 32-bit floats; it throws a `RangeError` when the byte
length is not a multiple of four (the second possible source of the
`catch` in `convertFloat32ToInt16PCM`).  A finite float value is an
exact rational; NaN and the infinities are kept symbolic because the
conversion loop treats them specially (`Math.max`/`Math.min` propagate
NaN, and storing NaN into an `Int16Array` yields 0). -/

/-- A decoded 32-bit float: an exact rational, an infinity, or NaN. -/
inductive Float32Val where
  | finite (q : ℚ)
  | posInf
  | negInf
  | nan
  deriving DecidableEq

/-- Decode four little-endian bytes as an IEEE-754 binary32 value. -/
def decodeFloat32 (b0 b1 b2 b3 : Nat) : Float32Val :=
  let sign := b3 / 128
  let expo := (b3 % 128) * 2 + b2 / 128
  let mant := (b2 % 128) * 65536 + b1 * 256 + b0
  if expo == 255 then
    if mant == 0 then (if sign == 1 then .negInf else .posInf) else .nan
  else
    let mag : ℚ :=
      if expo == 0 then (mant : ℚ) * ((2 : ℚ) ^ (149 : ℕ))⁻¹
      else ((2 : ℚ) ^ (23 : ℕ) + (mant : ℚ)) * (2 : ℚ) ^ expo * ((2 : ℚ) ^ (150 : ℕ))⁻¹
    .finite (if sign == 1 then -mag else mag)

/-- Group bytes four at a time into float values (the length is a
multiple of four whenever this is reached). -/
def bytesToFloat32 : List Nat → List Float32Val
  | b0 :: b1 :: b2 :: b3 :: rest => decodeFloat32 b0 b1 b2 b3 :: bytesToFloat32 rest
  | _ => []

/-- Clamping step of the conversion loop:
`Math.max(-1, Math.min(1, x))`. -/
def clampSample (x : ℚ) : ℚ := max (-1) (min 1 x)

/-- JavaScript `Math.round`: round half toward positive infinity. -/
def jsRound (q : ℚ) : ℤ := Rat.floor (q + 1/2)

/-- Body of the conversion loop of `convertFloat32ToInt16PCM` on one
finite sample: clamp to `[-1, 1]`, scale by 32767, round. -/
def float32SampleToInt16 (x : ℚ) : ℤ := jsRound (clampSample x * 32767)

/-- One sample of the conversion loop on a decoded float value.  For a
NaN sample the loop computes `Math.round(NaN) = NaN` and the
`Int16Array` store coerces it to 0; the infinities are clamped to ±1. -/
def float32ValToInt16 : Float32Val → ℤ
  | .finite q => float32SampleToInt16 q
  | .posInf => 32767
  | .negInf => -32767
  | .nan => 0

/-- Serialise the converted samples the way `new Uint8Array(int16Samples.buffer)`
does: each 16-bit value as two little-endian two's-complement bytes. -/
def int16ToBytes (zs : List ℤ) : List Nat :=
  zs.flatMap (fun z => let u := (z % 65536).toNat; [u % 256, u / 256])

/-- Embedding of `convertFloat32ToInt16PCM` (client `App.tsx`): decode
the base64 input, reinterpret as Float32 samples, clamp/scale/round each
sample to Int16, and re-encode as base64.  The two `none` / misaligned
branches are the paths on which the original throws and its `catch`
returns the input unchanged. -/
def convertFloat32ToInt16PCM (base64Float32 : String) : String :=
  match atobBytes base64Float32 with
  | none => base64Float32
  | some bytes =>
    if bytes.length % 4 != 0 then base64Float32
    else btoaBytes (int16ToBytes ((bytesToFloat32 bytes).map float32ValToInt16))

/-- The exception predicate of `convertFloat32ToInt16PCM`: the
conversion throws (and hence lands in its `catch`) exactly when `atob`
rejects the input or the decoded byte length is not a multiple of 4. -/
def convertThrows (s : String) : Bool :=
  match atobBytes s with
  | none => true
  | some bytes => bytes.length % 4 != 0

/-! ## Transcript display formatting (`formatAudioTranscript`) -/

/-- JavaScript `s.charAt(0).toUpperCase() + s.slice(1)` as performed by
`formatAudioTranscript` (ASCII case mapping). -/
def capitalizeFirst (s : String) : String :=
  match s.data with
  | [] => s
  | c :: cs => String.mk (c.toUpper :: cs)

/-- Embedding of `formatAudioTranscript` (client `App.tsx`): trim, then
capitalise the first letter, and for final messages append a period
unless the text already ends with `.`, `!` or `?`.  The guard
`!text || text.trim().length === 0` collapses to trim-emptiness,
because `!text` means `text = ""` whose trim is also empty. -/
def formatAudioTranscript (text : String) (isFinal : Bool) : String :=
  if (jsTrim text).data.length == 0 then text
  else
    let formatted := jsTrim text
    let formatted := if formatted.data.length > 0 then capitalizeFirst formatted else formatted
    if isFinal then
      let lastChar := formatted.data.getLastD ' '
      let endsWithPunctuation := lastChar == '.' || lastChar == '!' || lastChar == '?'
      if !endsWithPunctuation then formatted ++ "." else formatted
    else formatted

/-! ## The packet stream and the chat history

One inbound WebSocket message, after `JSON.parse`, is discriminated by
its `type`.  Only the fields the reducer reads are modelled; routing
`source.isAgent` is modelled as a `Bool` (the undefined case of the
client packets behaves as `false` in every comparison the reducer
performs). -/

/-- A `TEXT` packet as read by `onMessage`. -/
structure TextPacket where
  interactionId : String
  utteranceId : String
  text : String
  final : Bool
  isAgent : Bool
  date : Int
  deriving DecidableEq

/-- A server→client packet, discriminated by its `type` field. -/
inductive Packet where
  | audio (interactionId : String) (chunk : String)
  | newInteraction (interactionId : String)
  | cancelResponse (interactionId : String)
  | userSpeechComplete (interactionId : String) (metadata : Option Int)
  | text (tp : TextPacket)
  | interactionEnd (freshId : String) (interactionId : String) (date : Int)
  | error (msg : String)
  deriving DecidableEq

/-- The two kinds of `ChatHistoryItem` the reducer produces. -/
inductive ChatItemType where
  | ACTOR
  | INTERACTION_END
  deriving DecidableEq

/-- A chat-history item (`ChatHistoryItem` in the client types); the
purely presentational fields (display name, author) are omitted, all
fields the reconciliation logic reads are present. -/
structure ChatHistoryItem where
  id : String
  type : ChatItemType
  date : Int
  text : String
  interactionId : String
  isRecognizing : Bool
  isAgent : Bool
  deriving DecidableEq

/-- The still-recognizing match used twice by the `setChatHistory`
reconciliation: an `ACTOR` item with the same interaction id, with
`isRecognizing === true`, and the same origin. -/
def recognizingMatch (interactionId : String) (isAgent : Bool) (it : ChatHistoryItem) : Bool :=
  it.type == .ACTOR && it.interactionId == interactionId &&
    it.isRecognizing == true && it.isAgent == isAgent

/-- Embedding of the `setChatHistory` updater of `onMessage`: find the
index to replace (for a partial `ACTOR` item, a still-recognizing item
of the same interaction and origin; for a final `ACTOR` item, first such
a partial, else the item with the same utterance id; for other items, by
id) and update in place, appending when nothing matches. -/
def reconcileChatItem (chatItem : ChatHistoryItem) (currentState : List ChatHistoryItem) :
    List ChatHistoryItem :=
  let currentHistoryIndex : Option Nat :=
    if chatItem.type == .ACTOR && chatItem.isRecognizing then
      currentState.findIdx? (recognizingMatch chatItem.interactionId chatItem.isAgent)
    else if chatItem.type == .ACTOR && !chatItem.isRecognizing then
      match currentState.findIdx? (recognizingMatch chatItem.interactionId chatItem.isAgent) with
      | some partialIndex => some partialIndex
      | none => currentState.findIdx? (fun it => it.id == chatItem.id)
    else
      currentState.findIdx? (fun it => it.id == chatItem.id)
  match currentHistoryIndex with
  | some i => currentState.set i chatItem
  | none => currentState ++ [chatItem]

/-- The `TEXT` branch of `onMessage` up to the `chatItem` it builds:
`none` when the packet is filtered out (empty trimmed text from a
non-agent source), otherwise the constructed history item, whose display
text is formatted for user messages and kept verbatim for agent
messages. -/
def chatItemOfText (p : TextPacket) : Option ChatHistoryItem :=
  let trimmedText := jsTrim p.text
  if trimmedText.data.length > 0 || p.isAgent == true then
    let displayText := if !p.isAgent then formatAudioTranscript p.text p.final else p.text
    some
      { id := p.utteranceId
        type := .ACTOR
        date := p.date
        text := displayText
        interactionId := p.interactionId
        isRecognizing := !p.final
        isAgent := p.isAgent }
  else
    none

/-- Effect of one `TEXT` packet on the chat history: build the item (or
filter the packet out) and reconcile it into the history. -/
def processTextPacket (p : TextPacket) (history : List ChatHistoryItem) :
    List ChatHistoryItem :=
  match chatItemOfText p with
  | some chatItem => reconcileChatItem chatItem history
  | none => history

/-- Effect of a packet sequence on the chat history, in arrival order. -/
def processTextPackets (ps : List TextPacket) (history : List ChatHistoryItem) :
    List ChatHistoryItem :=
  ps.foldl (fun h p => processTextPacket p h) history

/-- Number of still-recognizing `ACTOR` items of one (interaction id,
origin) pair in a history. -/
def countRecognizing (interactionId : String) (isAgent : Bool)
    (h : List ChatHistoryItem) : Nat :=
  h.countP (recognizingMatch interactionId isAgent)

/-- The finalized counterpart of `recognizingMatch`. -/
def finalizedMatch (interactionId : String) (isAgent : Bool) (it : ChatHistoryItem) : Bool :=
  it.type == .ACTOR && it.interactionId == interactionId &&
    it.isRecognizing == false && it.isAgent == isAgent

/-- Number of finalized `ACTOR` items of one (interaction id, origin)
pair in a history. -/
def countFinalized (interactionId : String) (isAgent : Bool)
    (h : List ChatHistoryItem) : Nat :=
  h.countP (finalizedMatch interactionId isAgent)

/-! ## Latency bookkeeping (`setLatencyData` updates in `onMessage`) -/

/-- An `InteractionLatency` record (client types): timestamps are
JavaScript numbers that may be `undefined`, `userText` is a string whose
emptiness the code tests with falsiness. -/
structure InteractionLatency where
  interactionId : String
  userTextTimestamp : Option Int
  speechCompleteTimestamp : Option Int
  firstAudioTimestamp : Option Int
  latencyMs : Option Int
  userText : String
  metadata : Option Int
  deriving DecidableEq

/-- The `AUDIO` branch update of `setLatencyData`: when a record for the
interaction exists with a falsy `firstAudioTimestamp`, stamp the first
audio time and derive `latencyMs` from the preferred start timestamp
(`speechCompleteTimestamp || userTextTimestamp`); otherwise return the
previous state unchanged. -/
def audioLatencyUpdate (now : Int) (interactionId : String)
    (prev : List InteractionLatency) : List InteractionLatency :=
  match prev.find? (fun item => item.interactionId == interactionId) with
  | some existing =>
    if !numTruthy existing.firstAudioTimestamp then
      let firstAudioTimestamp := now
      let startTimestamp :=
        jsOrNum existing.speechCompleteTimestamp existing.userTextTimestamp
      let latencyMs : Option Int :=
        match startTimestamp, numTruthy startTimestamp with
        | some start, true => some (firstAudioTimestamp - start)
        | _, _ => none
      prev.map (fun item =>
        if item.interactionId == interactionId then
          { item with firstAudioTimestamp := some firstAudioTimestamp, latencyMs := latencyMs }
        else item)
    else prev
  | none => prev

/-- The `NEW_INTERACTION` branch update of `setLatencyData`: create an
entry stamped with the text-arrival time unless one already exists. -/
def newInteractionLatencyUpdate (now : Int) (interactionId : String)
    (prev : List InteractionLatency) : List InteractionLatency :=
  match prev.find? (fun item => item.interactionId == interactionId) with
  | some _ => prev
  | none =>
      prev ++ [{ interactionId
                 userTextTimestamp := some now
                 speechCompleteTimestamp := none
                 firstAudioTimestamp := none
                 latencyMs := none
                 userText := ""
                 metadata := none }]

/-- The `USER_SPEECH_COMPLETE` branch update of `setLatencyData`:
create an entry stamped with the speech-completion time, or stamp an
existing entry, carrying the packet metadata along. -/
def speechCompleteLatencyUpdate (now : Int) (interactionId : String)
    (metadata : Option Int) (prev : List InteractionLatency) : List InteractionLatency :=
  match prev.find? (fun item => item.interactionId == interactionId) with
  | none =>
      prev ++ [{ interactionId
                 userTextTimestamp := none
                 speechCompleteTimestamp := some now
                 firstAudioTimestamp := none
                 latencyMs := none
                 userText := "Voice input"
                 metadata := metadata }]
  | some _ =>
      prev.map (fun item =>
        if item.interactionId == interactionId then
          { item with speechCompleteTimestamp := some now, metadata := metadata }
        else item)

/-- The `TEXT` branch update of `setLatencyData` (final non-agent text
only): fill in the formatted user text on the record of the interaction
when its `userText` is still falsy. -/
def textLatencyUpdate (p : TextPacket) (prev : List InteractionLatency) :
    List InteractionLatency :=
  let formattedUserText := formatAudioTranscript (jsTrim p.text) true
  prev.map (fun item =>
    if item.interactionId == p.interactionId && !strTruthy item.userText then
      { item with userText := formattedUserText }
    else item)

/-- Effect of one packet on the latency list, combining the four
`setLatencyData` call sites of `onMessage`; `now` is the value
`Date.now()` returns while the packet is handled.  `AUDIO` and
`NEW_INTERACTION` only update when the packet carries a truthy
interaction id, and the `TEXT` update fires only for final non-agent
packets with a truthy interaction id — mirroring the guards in the
source. -/
def processLatency (now : Int) (p : Packet) (prev : List InteractionLatency) :
    List InteractionLatency :=
  match p with
  | .audio interactionId _ =>
      if strTruthy interactionId then audioLatencyUpdate now interactionId prev else prev
  | .newInteraction interactionId =>
      if strTruthy interactionId then newInteractionLatencyUpdate now interactionId prev else prev
  | .userSpeechComplete interactionId metadata =>
      speechCompleteLatencyUpdate now interactionId metadata prev
  | .text tp =>
      if !tp.isAgent && tp.final && strTruthy tp.interactionId then
        textLatencyUpdate tp prev
      else prev
  | .cancelResponse _ => prev
  | .interactionEnd _ _ _ => prev
  | .error _ => prev

/-! ## `AUDIO` routing between the HeyGen bridge and the local player -/

/-- The slice of `stateRef.current` the `AUDIO` branch destructures,
plus the stream-ready flag the client also tracks (`isHeygenStreamReady`)
— which the routing condition does NOT read. -/
structure AvatarState where
  isHeygenConnected : Bool
  hasHeygenSession : Bool
  isHeygenStreamReady : Bool
  deriving DecidableEq

/-- Destination of one audio chunk: pushed to the HeyGen bridge
(`repeatAudio`) or enqueued on the local sequential player. -/
inductive AudioSink where
  | bridge (payload : String)
  | localQueue (payload : String)
  deriving DecidableEq

/-- Whether a sink is the HeyGen bridge. -/
def AudioSink.isBridge : AudioSink → Bool
  | .bridge _ => true
  | .localQueue _ => false

/-- Embedding of the `AUDIO` routing of `onMessage`: when the current
state says HeyGen is connected and a session object exists, convert the
chunk and push it to the bridge, falling back to the local queue with
the ORIGINAL chunk when `repeatAudio` rejects (`repeatAudioOk = false`);
otherwise enqueue the original chunk locally. -/
def routeAudio (st : AvatarState) (repeatAudioOk : Bool) (chunk : String) : AudioSink :=
  if st.isHeygenConnected && st.hasHeygenSession then
    if repeatAudioOk then .bridge (convertFloat32ToInt16PCM chunk)
    else .localQueue chunk
  else .localQueue chunk

/-! ## Server session registry (`InworldApp.load`, `server/components/app.ts`)

Credentials are strings where `""` stands for an absent value: the
server environment parser already normalises missing env vars to `""`,
and the `||` fallbacks in `load` treat `""` and `undefined` alike. -/

/-- The API keys of a load request or of a stored connection. -/
structure ApiKeys where
  inworldApiKey : String
  assemblyAiApiKey : String
  heygenApiKey : String
  deriving DecidableEq

/-- The request-body fields `load` reads. -/
structure LoadBody where
  agentSystemPrompt : String
  userName : String
  sttService : String
  apiKeys : ApiKeys
  deriving DecidableEq

/-- The server environment fields `load` consults
(`parseEnvironmentVariables` yields `""` for unset keys). -/
structure ServerEnv where
  apiKey : String
  assemblyAIApiKey : String
  heygenApiKey : String
  deriving DecidableEq

/-- The agent-specific configuration `getAgentConfig` derives from the
system prompt.  Its computation (regex name extraction plus env-var
lookup, `server/helpers`) only chooses voice/avatar ids and cannot fail,
so it enters the model as an opaque result value. -/
structure AgentConfig where
  voiceId : String
  heygenAvatarId : String
  deriving DecidableEq

/-- One conversational message held in a session state. -/
structure SessionMessage where
  role : String
  content : String
  id : String
  deriving DecidableEq

/-- The conversational state stored for a session. -/
structure SessionState where
  interactionId : String
  messages : List SessionMessage
  userName : String
  voiceId : String
  deriving DecidableEq

/-- A `Connection` entry of the registry (`server/types`), minus the
raw WebSocket handle (always `null` at creation). -/
structure Connection where
  state : SessionState
  sttService : String
  agentConfig : AgentConfig
  apiKeys : ApiKeys
  unloaded : Bool
  deriving DecidableEq

/-- The `connections` table, with JavaScript-object assignment
semantics. -/
abbrev Connections := List (String × Connection)

/-- `this.connections[sessionId] = conn`: overwrite the entry when the
key exists, append it otherwise. -/
def setConnection (conns : Connections) (sessionId : String) (conn : Connection) : Connections :=
  if conns.any (fun e => e.1 == sessionId) then
    conns.map (fun e => if e.1 == sessionId then (sessionId, conn) else e)
  else conns ++ [(sessionId, conn)]

/-- Replace the first occurrence of `pat` in `l` by `rep` — JavaScript
`String.prototype.replace` with a plain-string pattern. -/
def replaceFirstList (pat rep : List Char) : List Char → List Char
  | [] => if pat == [] then rep else []
  | c :: cs =>
    if pat.isPrefixOf (c :: cs) then rep ++ (c :: cs).drop pat.length
    else c :: replaceFirstList pat rep cs

/-- `createSystemMessage`: `agent.systemPrompt.replace("{userName}", userName)`. -/
def createSystemMessage (systemPrompt userName : String) : String :=
  String.mk (replaceFirstList "{userName}".data userName.data systemPrompt.data)

/-- How a `load` request terminates, by the distinct response the
source sends in each branch. -/
inductive LoadResult where
  | validationErrors
  | missingInworldKey
  | unsupportedStt (requestedService : String)
  | missingAssemblyAiKey
  | success
  deriving DecidableEq

/-- Whether a `LoadResult` is one of the error responses
(HTTP status 400) rather than the success payload. -/
def LoadResult.isError : LoadResult → Bool
  | .success => false
  | _ => true

/-- Embedding of `InworldApp.load`: validate, resolve the effective
credentials with client-over-server precedence, reject on a missing
Inworld key, a non-AssemblyAI STT service, or a missing Assembly.AI
key — all BEFORE the `connections[sessionId]` assignment — and only on
success store the new `Connection`.  `validationOk` stands for
`validationResult(req).isEmpty()`, and `agentId` / `systemMessageId` for
the two `v4()` calls. -/
def load (validationOk : Bool) (sessionId : String) (body : LoadBody) (env : ServerEnv)
    (systemMessageId : String) (agentConfig : AgentConfig) (conns : Connections) :
    LoadResult × Connections :=
  if !validationOk then (.validationErrors, conns)
  else
    let sttService := jsOrStr body.sttService "assemblyai"
    let effectiveInworldApiKey := jsOrStr body.apiKeys.inworldApiKey env.apiKey
    let effectiveAssemblyAiApiKey := jsOrStr body.apiKeys.assemblyAiApiKey env.assemblyAIApiKey
    let effectiveHeygenApiKey := jsOrStr body.apiKeys.heygenApiKey env.heygenApiKey
    if !strTruthy effectiveInworldApiKey then (.missingInworldKey, conns)
    else if sttService != "assemblyai" then (.unsupportedStt sttService, conns)
    else if !strTruthy effectiveAssemblyAiApiKey then (.missingAssemblyAiKey, conns)
    else
      let conn : Connection :=
        { state :=
            { interactionId := systemMessageId
              messages :=
                [{ role := "system"
                   content := createSystemMessage body.agentSystemPrompt body.userName
                   id := "system" ++ systemMessageId }]
              userName := body.userName
              voiceId := agentConfig.voiceId }
          sttService := sttService
          agentConfig := agentConfig
          apiKeys :=
            { inworldApiKey := effectiveInworldApiKey
              assemblyAiApiKey := effectiveAssemblyAiApiKey
              heygenApiKey := effectiveHeygenApiKey }
          unloaded := false }
      (.success, setConnection conns sessionId conn)

/-! ## The per-voice graph cache and its suspension point

`getTextGraphForSession` (and identically `getGraphForSTTService`) runs

  let graph = this.sessionTextGraphs.get(voiceId);   -- segment 1
  if (!graph) {
    graph = await InworldGraphWrapper.create({...}); -- SUSPENDS here
    this.sessionTextGraphs.set(voiceId, graph);      -- segment 2
  }

so one call decomposes into two atomic segments separated by the
`await`: the cache check, and (on a miss) the insertion of the graph
whose creation was awaited.  Between the two segments the event loop may
run any other task. -/

/-- State of the shared per-voice cache: the map itself, a supply of
fresh graph handles, and the log of `InworldGraphWrapper.create` calls
(one entry per constructed graph, tagged with its voice id). -/
structure GraphCacheState where
  cache : List (String × Nat)
  nextGraph : Nat
  creations : List String
  deriving DecidableEq

/-- Segment 1 of a lookup — `this.sessionTextGraphs.get(voiceId)`,
executed atomically before the `await`. -/
def graphCacheCheck (st : GraphCacheState) (voiceId : String) : Option Nat :=
  (st.cache.find? (fun e => e.1 == voiceId)).map (fun e => e.2)

/-- Segment 2 of a lookup that missed — the awaited
`InworldGraphWrapper.create` completes (logged as a construction) and
`this.sessionTextGraphs.set(voiceId, graph)` stores the new handle. -/
def graphCacheInsert (st : GraphCacheState) (voiceId : String) : GraphCacheState :=
  { cache :=
      if st.cache.any (fun e => e.1 == voiceId) then
        st.cache.map (fun e => if e.1 == voiceId then (voiceId, st.nextGraph) else e)
      else st.cache ++ [(voiceId, st.nextGraph)]
    nextGraph := st.nextGraph + 1
    creations := st.creations ++ [voiceId] }

/-- The scheduler-legal interleaving in which two calls for the same
voice id both run their check segment before either resumes from the
`await`: check A, check B, resume A (create + insert), resume B
(create + insert).  It is legal precisely because the `await` between
check and insert yields the event loop. -/
def twoConcurrentGraphLookups (st0 : GraphCacheState) (voiceId : String) : GraphCacheState :=
  let aMisses := (graphCacheCheck st0 voiceId).isNone
  let bMisses := (graphCacheCheck st0 voiceId).isNone
  let st1 := if aMisses then graphCacheInsert st0 voiceId else st0
  if bMisses then graphCacheInsert st1 voiceId else st1

/-! ## Audio capture start/stop (`Chat.tsx`)

`startRecording` / `stopRecording` manipulate the module-level mutable
globals `interval`, `stream`, `audioWorkletNode`.  The model tracks, in
addition to those handles, the multiset of timers and media streams that
are actually live — `setInterval` registers a new timer regardless of
any previous one, and `clearInterval(interval)` cancels only the timer
the handle currently names. -/

/-- Capture-side state: the `isRecording` React flag, the module-level
handles, and the sets of live timers/streams with a fresh-id supply. -/
structure CaptureState where
  isRecording : Bool
  interval : Option Nat
  stream : Option Nat
  activeTimers : List Nat
  activeStreams : List Nat
  nextId : Nat
  deriving DecidableEq

/-- The capture state before any recording: no live timer or stream. -/
def initialCaptureState : CaptureState :=
  { isRecording := false, interval := none, stream := none,
    activeTimers := [], activeStreams := [], nextId := 0 }

/-- Embedding of `startRecording`: bail out unless a connection exists
and the session is loaded, then set `isRecording`, acquire a fresh media
stream via `getUserMedia`, and register a fresh `setInterval` timer —
overwriting the module-level `stream` and `interval` handles without
consulting them.  There is no guard on `isRecording`. -/
def startRecording (hasConnection isLoaded : Bool) (s : CaptureState) : CaptureState :=
  if !hasConnection || !isLoaded then s
  else
    let streamId := s.nextId
    let timerId := s.nextId + 1
    { isRecording := true
      interval := some timerId
      stream := some streamId
      activeTimers := s.activeTimers ++ [timerId]
      activeStreams := s.activeStreams ++ [streamId]
      nextId := s.nextId + 2 }

/-- Embedding of `stopRecording`: clear `isRecording`,
`clearInterval(interval)` (cancelling only the timer the handle names),
and stop the tracks of the stream the `stream` handle names. -/
def stopRecording (s : CaptureState) : CaptureState :=
  { isRecording := false
    interval := s.interval
    stream := s.stream
    activeTimers :=
      match s.interval with
      | some t => s.activeTimers.filter (fun x => x != t)
      | none => s.activeTimers
    activeStreams :=
      match s.stream with
      | some st => s.activeStreams.filter (fun x => x != st)
      | none => s.activeStreams
    nextId := s.nextId }

/-- Embedding of `handleSpeakClick`: with a loaded session and a live
connection, a click either stops recording (when the `isRecording`
rendered into the callback is `true`) or starts it.  `observedIsRecording`
is the React state snapshot the callback closed over, which lags the
actual state while updates are pending. -/
def handleSpeakClick (isLoaded hasConnection observedIsRecording : Bool)
    (s : CaptureState) : CaptureState :=
  if !isLoaded || !hasConnection then s
  else if observedIsRecording then stopRecording s
  else startRecording hasConnection isLoaded s

/-! ## Helper lemmas -/

/-- `jsRound` is the floor of the shifted argument. -/
lemma jsRound_eq_floor (q : ℚ) : jsRound q = ⌊q + 1/2⌋ := rfl

/-- The clamped value is at least `-1`. -/
lemma clampSample_lower (x : ℚ) : -1 ≤ clampSample x := le_max_left _ _

/-- The clamped value is at most `1`. -/
lemma clampSample_upper (x : ℚ) : clampSample x ≤ 1 :=
  max_le (by norm_num) (min_le_left _ _)

/-- A nonempty string has a nonempty character list. -/
lemma data_length_pos_of_ne_empty {s : String} (h : s ≠ "") : 0 < s.data.length := by
  rcases hd : s.data with _ | ⟨c, cs⟩
  · refine absurd ?_ h
    cases s with
    | mk d =>
      simp only at hd
      simp [hd]
  · simp

/-- `findIdx?` returning an index yields an in-range position whose
element satisfies the predicate. -/
lemma findIdx?_some_spec {α : Type} (p : α → Bool) (l : List α) (i : Nat)
    (h : l.findIdx? p = some i) : ∃ hi : i < l.length, p (l.get ⟨i, hi⟩) = true := by
  rw [List.findIdx?_eq_some_iff_findIdx_eq] at h
  obtain ⟨h1, h2⟩ := h
  subst h2
  exact ⟨h1, List.findIdx_getElem⟩

/-- `findIdx?` returning `none` means the predicate counts nothing. -/
lemma countP_eq_zero_of_findIdx?_none {α : Type} {p : α → Bool} {l : List α}
    (h : l.findIdx? p = none) : l.countP p = 0 := by
  rw [List.countP_eq_zero]
  intro a ha
  have := List.findIdx?_eq_none_iff.mp h a ha
  simp [this]

/-! ## C4: clamping makes the sample conversion saturate instead of wrap -/

/-- Claim C4, refuted conjunct: the claim asserts that converting a
sample to Int16 and back "preserves the sign of each original sample".
At the concrete sample `1/65536` (an exact `Float32` value, `2 ^ (-16)`)
the conversion loop of `convertFloat32ToInt16PCM` produces
`Math.round((1/65536) * 32767) = 0`, a sample with no sign left: the
strictly positive input becomes zero (and decodes back to `0.0`), so the
sign is not preserved. -/
theorem sample_sign_counterexample :
    float32SampleToInt16 (1/65536) = 0 ∧ (0 : ℚ) < 1/65536 := by
  constructor
  · have hclamp : clampSample (1/65536 : ℚ) = 1/65536 := by
      unfold clampSample
      rw [min_eq_right (by norm_num), max_eq_right (by norm_num)]
    unfold float32SampleToInt16
    rw [hclamp, jsRound_eq_floor]
    norm_num
  · norm_num

/-- Claim C4 (amended): the conversion loop of `convertFloat32ToInt16PCM`
clamps each sample to `[-1, 1]` before integer scaling, so no output
sample wraps around: every output lies in the signed 16-bit range,
inputs at or beyond `±1.0` map to the saturated values `±32767`, and the
conversion never flips the sign of a sample — positive samples map to
non-negative outputs and negative samples to non-positive outputs
(samples of magnitude below the quantisation step may map to zero). -/
theorem sample_conversion_clamped (x : ℚ) :
    (-32768 ≤ float32SampleToInt16 x ∧ float32SampleToInt16 x ≤ 32767) ∧
    (1 ≤ x → float32SampleToInt16 x = 32767) ∧
    (x ≤ -1 → float32SampleToInt16 x = -32767) ∧
    (0 < x → 0 ≤ float32SampleToInt16 x) ∧
    (x < 0 → float32SampleToInt16 x ≤ 0) := by
  have hlo := clampSample_lower x
  have hhi := clampSample_upper x
  unfold float32SampleToInt16
  rw [jsRound_eq_floor]
  refine ⟨⟨?_, ?_⟩, ?_, ?_, ?_, ?_⟩
  · rw [Int.le_floor]
    push_cast
    nlinarith
  · rw [Int.floor_le_iff]
    push_cast
    nlinarith
  · intro h1
    have hc : clampSample x = 1 := by
      unfold clampSample
      rw [min_eq_left h1, max_eq_right (by norm_num)]
    rw [hc]
    norm_num
  · intro h1
    have hc : clampSample x = -1 := by
      unfold clampSample
      have : min 1 x = x := min_eq_right (by linarith)
      rw [this, max_eq_left (by linarith)]
    rw [hc]
    norm_num
  · intro h1
    have hc : 0 ≤ clampSample x :=
      le_trans (le_min (by norm_num) (le_of_lt h1)) (le_max_right _ _)
    rw [Int.le_floor]
    push_cast
    nlinarith
  · intro h1
    have hc : clampSample x ≤ 0 :=
      max_le (by norm_num) (le_trans (min_le_right 1 x) (le_of_lt h1))
    rw [Int.floor_le_iff]
    push_cast
    nlinarith

/-- Witness for C4: at the out-of-range samples `2` and `-2` the
conversion saturates to `32767` and `-32767`. -/
theorem sample_conversion_clamped_witness :
    float32SampleToInt16 2 = 32767 ∧ float32SampleToInt16 (-2) = -32767 :=
  ⟨(sample_conversion_clamped 2).2.1 (by decide),
   (sample_conversion_clamped (-2)).2.2.1 (by decide)⟩

/-! ## C10: undecodable payloads are forwarded unchanged, not dropped -/

/-- Claim C10: on every input on which the conversion pipeline of
`convertFloat32ToInt16PCM` throws — `atob` rejecting the string, or the
decoded byte length not being a multiple of four — the `catch` branch
returns the original input string unchanged (neither a failure nor empty
output). -/
theorem convert_returns_input_on_throw (s : String) (h : convertThrows s = true) :
    convertFloat32ToInt16PCM s = s := by
  unfold convertThrows at h
  unfold convertFloat32ToInt16PCM
  cases hA : atobBytes s with
  | none => rfl
  | some bytes =>
    rw [hA] at h
    simp only at h ⊢
    rw [if_pos h]

/-- Witness for C10: the string `"%%%"` is not base64, and the
conversion returns it verbatim. -/
theorem convert_returns_input_on_throw_witness :
    convertFloat32ToInt16PCM "%%%" = "%%%" :=
  convert_returns_input_on_throw "%%%" (by decide)

/-! ## C3: audio routing between the bridge and the local queue -/

/-- Claim C3, refuted conjunct: the claim says audio is forwarded to the
bridge "if and only if the avatar bridge is connected AND its stream is
ready".  The routing condition of `onMessage` reads only
`isHeygenConnected` and the session handle — `isHeygenStreamReady` is
not consulted — so in the concrete state where the bridge is connected
but its stream is NOT ready, the chunk is still pushed to the bridge,
contradicting the only-if direction. -/
theorem audio_routing_stream_ready_counterexample :
    (routeAudio ⟨true, true, false⟩ true "AA==").isBridge = true ∧
    (⟨true, true, false⟩ : AvatarState).isHeygenStreamReady = false := by
  decide

/-- Claim C3 (amended): a chunk is forwarded to the avatar bridge
(after float-to-int16 conversion) if and only if, at the moment of
processing, the connected flag is set, a session handle exists, and
`repeatAudio` accepts it — stream readiness is not consulted; when
forwarding fails the chunk is enqueued on the local playback queue in
its original encoding, and when no bridge is available it is enqueued
directly — each chunk goes to exactly one sink. -/
theorem audio_routing_exclusive (st : AvatarState) (repeatAudioOk : Bool) (chunk : String) :
    (routeAudio st repeatAudioOk chunk = .bridge (convertFloat32ToInt16PCM chunk) ↔
      st.isHeygenConnected = true ∧ st.hasHeygenSession = true ∧ repeatAudioOk = true) ∧
    (routeAudio st repeatAudioOk chunk = .localQueue chunk ↔
      ¬(st.isHeygenConnected = true ∧ st.hasHeygenSession = true ∧ repeatAudioOk = true)) := by
  unfold routeAudio
  rcases st with ⟨c, s, r⟩
  cases c <;> cases s <;> cases repeatAudioOk <;> simp

/-- Witness for C3: with no connected bridge the chunk goes to the local
queue. -/
theorem audio_routing_exclusive_witness :
    routeAudio ⟨false, false, true⟩ true "chunk" = AudioSink.localQueue "chunk" :=
  (audio_routing_exclusive ⟨false, false, true⟩ true "chunk").2.mpr (by simp)

/-! ## C5: empty-text filtering -/

/-- Claim C5: a `TEXT` packet from a non-agent origin whose text trims
to the empty string is discarded — no chat item is built and the history
is returned unchanged — while an agent `TEXT` packet always yields a
chat item, regardless of its text. -/
theorem empty_text_filtering :
    (∀ (p : TextPacket) (h : List ChatHistoryItem),
        p.isAgent = false → jsTrim p.text = "" →
        chatItemOfText p = none ∧ processTextPacket p h = h) ∧
    (∀ p : TextPacket, p.isAgent = true → (chatItemOfText p).isSome = true) := by
  constructor
  · intro p h hagent htrim
    have hnone : chatItemOfText p = none := by
      unfold chatItemOfText
      rw [htrim, hagent]
      simp
    refine ⟨hnone, ?_⟩
    unfold processTextPacket
    rw [hnone]
  · intro p hagent
    unfold chatItemOfText
    rw [hagent]
    simp

/-- Witness for C5: the empty final user packet of Scenario B is
filtered and the history stays empty. -/
theorem empty_text_filtering_witness :
    chatItemOfText ⟨"T2", "u1", "", true, false, 0⟩ = none ∧
    processTextPacket ⟨"T2", "u1", "", true, false, 0⟩ [] = [] :=
  empty_text_filtering.1 ⟨"T2", "u1", "", true, false, 0⟩ [] rfl (by decide)

/-! ## C6: final user text normalisation and Scenario A -/

/-- Specification-side description of final-user-text display
normalisation, written from the spec's words — the trimmed input with
its first character uppercased and a terminal period appended when the
text does not already end in `.`, `!` or `?` — to be compared with the
source-translated `formatAudioTranscript`. -/
def specNormalizeFinalUserText (s : String) : String :=
  let t := capitalizeFirst (jsTrim s)
  let last := t.data.getLastD ' '
  if last == '.' || last == '!' || last == '?' then t else t ++ "."

/-- Claim C6: for final user text with non-empty trimmed content,
the displayed text is exactly the spec's normalisation (trimmed,
first character uppercased, period appended unless already
punctuated); and Scenario A — a non-final user "hello" followed by a
final user "hello there" on the same turn — leaves exactly one user
item for that turn, finalized, with text "Hello there.". -/
theorem final_user_text_normalization :
    (∀ s : String, jsTrim s ≠ "" →
        formatAudioTranscript s true = specNormalizeFinalUserText s) ∧
    processTextPackets
        [⟨"T1", "u1", "hello", false, false, 0⟩,
         ⟨"T1", "u2", "hello there", true, false, 1⟩] [] =
      [⟨"u2", .ACTOR, 1, "Hello there.", "T1", false, false⟩] := by
  constructor
  · intro s hs
    have hpos : 0 < (jsTrim s).data.length := data_length_pos_of_ne_empty hs
    have h0 : ((jsTrim s).data.length == 0) = false := by
      simp only [beq_eq_false_iff_ne]
      omega
    unfold formatAudioTranscript specNormalizeFinalUserText
    simp only [h0, Bool.false_eq_true, if_false, gt_iff_lt, hpos, if_true, if_pos hpos]
    rcases hc : ((capitalizeFirst (jsTrim s)).data.getLastD ' ' == '.' ||
        (capitalizeFirst (jsTrim s)).data.getLastD ' ' == '!' ||
        (capitalizeFirst (jsTrim s)).data.getLastD ' ' == '?') with _ | _
    · simp [hc]
    · simp [hc]
  · decide

/-- Witness for C6: "hello there" is normalised to the spec's display
form. -/
theorem final_user_text_normalization_witness :
    formatAudioTranscript "hello there" true = specNormalizeFinalUserText "hello there" :=
  final_user_text_normalization.1 "hello there" (by decide)

/-! ## C1: partial/final reconciliation keeps one item per (turn, origin) -/

/-- The fields of a chat item built from a `TEXT` packet. -/
lemma chatItemOfText_fields {p : TextPacket} {item : ChatHistoryItem}
    (h : chatItemOfText p = some item) :
    item.type = .ACTOR ∧ item.interactionId = p.interactionId ∧
    item.isRecognizing = !p.final ∧ item.isAgent = p.isAgent := by
  simp only [chatItemOfText] at h
  split at h
  · injection h with h
    subst h
    exact ⟨rfl, rfl, rfl, rfl⟩
  · exact Option.noConfusion h

/-- A packet that survives the empty-text filter yields a chat item. -/
lemma chatItemOfText_isSome_of (p : TextPacket)
    (hpass : jsTrim p.text ≠ "" ∨ p.isAgent = true) :
    ∃ item, chatItemOfText p = some item := by
  simp only [chatItemOfText]
  have hcond : (decide ((jsTrim p.text).data.length > 0) || p.isAgent == true) = true := by
    rcases hpass with h | h
    · rw [decide_eq_true (data_length_pos_of_ne_empty h), Bool.true_or]
    · rw [h]
      simp
  rw [if_pos hcond]
  exact ⟨_, rfl⟩

/-- An item matching the still-recognizing pattern never matches the
finalized pattern. -/
lemma recognizingMatch_not_finalized {iid : String} {ag : Bool} {it : ChatHistoryItem}
    (h : recognizingMatch iid ag it = true) : finalizedMatch iid ag it = false := by
  unfold recognizingMatch at h
  unfold finalizedMatch
  simp only [Bool.and_eq_true, beq_iff_eq] at h
  obtain ⟨⟨⟨hty, hiid⟩, hrec⟩, hag⟩ := h
  simp [hrec]

/-- Reconciling a still-recognizing item of the pair into a history with
at most one partial and no finalized item of the pair preserves that
shape: the item updates the partial in place or is appended as the only
one. -/
lemma reconcile_nonfinal_counts (iid : String) (ag : Bool) (item : ChatHistoryItem)
    (hist : List ChatHistoryItem) (hty : item.type = .ACTOR) (hiid : item.interactionId = iid)
    (hrec : item.isRecognizing = true) (hag : item.isAgent = ag)
    (hc : countRecognizing iid ag hist ≤ 1) (hf : countFinalized iid ag hist = 0) :
    countRecognizing iid ag (reconcileChatItem item hist) ≤ 1 ∧
    countFinalized iid ag (reconcileChatItem item hist) = 0 := by
  have hitem_rec : recognizingMatch iid ag item = true := by
    simp [recognizingMatch, hty, hiid, hrec, hag]
  have hitem_fin : finalizedMatch iid ag item = false := recognizingMatch_not_finalized hitem_rec
  have hcond : (item.type == ChatItemType.ACTOR && item.isRecognizing) = true := by
    simp [hty, hrec]
  simp only [reconcileChatItem, hcond, hiid, hag, eq_self_iff_true, if_true]
  cases hidx : hist.findIdx? (recognizingMatch iid ag) with
  | some i =>
    dsimp only
    obtain ⟨hi, hpi⟩ := findIdx?_some_spec _ _ _ hidx
    simp only [List.get_eq_getElem] at hpi
    have hfin_li : finalizedMatch iid ag hist[i] = false :=
      recognizingMatch_not_finalized hpi
    have hpos : 0 < hist.countP (recognizingMatch iid ag) :=
      List.countP_pos_iff.mpr ⟨_, List.getElem_mem hi, hpi⟩
    have e1 := List.countP_set (recognizingMatch iid ag) hist i item hi
    have e2 := List.countP_set (finalizedMatch iid ag) hist i item hi
    rw [hpi, hitem_rec] at e1
    rw [hfin_li, hitem_fin] at e2
    simp at e1 e2
    unfold countRecognizing countFinalized at *
    omega
  | none =>
    dsimp only
    have h0 := countP_eq_zero_of_findIdx?_none hidx
    unfold countRecognizing countFinalized at *
    rw [List.countP_append, List.countP_append]
    simp [List.countP_cons, hitem_rec, hitem_fin, h0, hf]

/-- Reconciling a finalized item of the pair into a history with at most
one partial and no finalized item of the pair leaves exactly one
finalized item and no partial: the partial (when present) is replaced,
otherwise the item lands via the id lookup or is appended. -/
lemma reconcile_final_counts (iid : String) (ag : Bool) (item : ChatHistoryItem)
    (hist : List ChatHistoryItem) (hty : item.type = .ACTOR) (hiid : item.interactionId = iid)
    (hrec : item.isRecognizing = false) (hag : item.isAgent = ag)
    (hc : countRecognizing iid ag hist ≤ 1) (hf : countFinalized iid ag hist = 0) :
    countFinalized iid ag (reconcileChatItem item hist) = 1 ∧
    countRecognizing iid ag (reconcileChatItem item hist) = 0 := by
  have hitem_fin : finalizedMatch iid ag item = true := by
    simp [finalizedMatch, hty, hiid, hrec, hag]
  have hitem_rec : recognizingMatch iid ag item = false := by
    simp [recognizingMatch, hty, hiid, hrec, hag]
  have hcond1 : (item.type == ChatItemType.ACTOR && item.isRecognizing) = false := by
    simp [hty, hrec]
  have hcond2 : (item.type == ChatItemType.ACTOR && !item.isRecognizing) = true := by
    simp [hty, hrec]
  simp only [reconcileChatItem, hcond1, hcond2, hiid, hag, Bool.false_eq_true, if_false,
    eq_self_iff_true, if_true]
  cases hidx : hist.findIdx? (recognizingMatch iid ag) with
  | some i =>
    dsimp only
    obtain ⟨hi, hpi⟩ := findIdx?_some_spec _ _ _ hidx
    simp only [List.get_eq_getElem] at hpi
    have hpos : 0 < hist.countP (recognizingMatch iid ag) :=
      List.countP_pos_iff.mpr ⟨_, List.getElem_mem hi, hpi⟩
    have hfin_li : finalizedMatch iid ag hist[i] = false := recognizingMatch_not_finalized hpi
    have e1 := List.countP_set (recognizingMatch iid ag) hist i item hi
    have e2 := List.countP_set (finalizedMatch iid ag) hist i item hi
    rw [hpi, hitem_rec] at e1
    rw [hfin_li, hitem_fin] at e2
    simp at e1 e2
    unfold countRecognizing countFinalized at *
    omega
  | none =>
    dsimp only
    have h0 := countP_eq_zero_of_findIdx?_none hidx
    have hallrec : ∀ a ∈ hist, ¬ recognizingMatch iid ag a = true := List.countP_eq_zero.mp h0
    have hallfin : ∀ a ∈ hist, ¬ finalizedMatch iid ag a = true := by
      refine List.countP_eq_zero.mp ?_
      unfold countFinalized at hf
      exact hf
    cases hidy : hist.findIdx? (fun it => it.id == item.id) with
    | some j =>
      dsimp only
      obtain ⟨hj, _⟩ := findIdx?_some_spec _ _ _ hidy
      have hrj : recognizingMatch iid ag hist[j] = false := by
        have := hallrec _ (List.getElem_mem hj)
        simpa using this
      have hfj : finalizedMatch iid ag hist[j] = false := by
        have := hallfin _ (List.getElem_mem hj)
        simpa using this
      have e1 := List.countP_set (recognizingMatch iid ag) hist j item hj
      have e2 := List.countP_set (finalizedMatch iid ag) hist j item hj
      rw [hrj, hitem_rec] at e1
      rw [hfj, hitem_fin] at e2
      simp at e1 e2
      unfold countRecognizing countFinalized at *
      omega
    | none =>
      dsimp only
      unfold countRecognizing countFinalized at *
      rw [List.countP_append, List.countP_append]
      simp [List.countP_cons, hitem_rec, hitem_fin, h0, hf]

/-- Processing any number of non-final packets of the pair keeps at most
one partial and no finalized item of the pair in the history. -/
lemma processTextPackets_nonfinal_invariant (iid : String) (ag : Bool) (ps : List TextPacket)
    (hist : List ChatHistoryItem)
    (hps : ∀ p ∈ ps, p.interactionId = iid ∧ p.isAgent = ag ∧ p.final = false)
    (hc : countRecognizing iid ag hist ≤ 1) (hf : countFinalized iid ag hist = 0) :
    countRecognizing iid ag (processTextPackets ps hist) ≤ 1 ∧
    countFinalized iid ag (processTextPackets ps hist) = 0 := by
  induction ps generalizing hist with
  | nil => exact ⟨hc, hf⟩
  | cons p ps ih =>
    have hp := hps p (List.mem_cons_self p ps)
    have hfold : processTextPackets (p :: ps) hist
        = processTextPackets ps (processTextPacket p hist) := rfl
    rw [hfold]
    have hstep : countRecognizing iid ag (processTextPacket p hist) ≤ 1 ∧
        countFinalized iid ag (processTextPacket p hist) = 0 := by
      unfold processTextPacket
      cases hcio : chatItemOfText p with
      | none => exact ⟨hc, hf⟩
      | some item =>
        obtain ⟨hty, hiid2, hrec2, hag2⟩ := chatItemOfText_fields hcio
        exact reconcile_nonfinal_counts iid ag item hist hty (hiid2.trans hp.1)
          (by rw [hrec2, hp.2.2]; rfl) (hag2.trans hp.2.1) hc hf
    exact ih _ (fun q hq => hps q (List.mem_cons_of_mem p hq)) hstep.1 hstep.2

/-- Claim C1, refuted edge: the claim demands exactly one finalized item
"once a final packet for it has been processed", for EVERY packet
sequence of the pair.  But a final user packet whose text trims to the
empty string is discarded by the empty-text filter: after the sequence
non-final `TEXT(T1, user, "hello")` then final `TEXT(T1, user, "")` the
history holds no finalized item for (T1, user) and the partial is still
there. -/
theorem text_reconciliation_counterexample :
    countFinalized "T1" false (processTextPackets
        [⟨"T1", "u1", "hello", false, false, 0⟩, ⟨"T1", "u3", "", true, false, 1⟩] []) = 0 ∧
    countRecognizing "T1" false (processTextPackets
        [⟨"T1", "u1", "hello", false, false, 0⟩, ⟨"T1", "u3", "", true, false, 1⟩] []) = 1 := by
  decide

/-- Claim C1 (amended): for every sequence of non-final `TEXT` packets
of one (turn id, origin) pair followed by a final packet of the pair
that passes the empty-text filter (non-empty trimmed text, or agent
origin), starting from a history with no item of the pair: while only
the non-final packets have been processed the history holds at most one
still-recognizing item of the pair, and after the final packet it holds
exactly one finalized item of the pair and no leftover partial —
regardless of how many non-final packets preceded the final one. -/
theorem text_reconciliation_single_item (iid : String) (ag : Bool)
    (ps : List TextPacket) (q : TextPacket) (h₀ : List ChatHistoryItem)
    (hps : ∀ p ∈ ps, p.interactionId = iid ∧ p.isAgent = ag ∧ p.final = false)
    (hq : q.interactionId = iid ∧ q.isAgent = ag ∧ q.final = true)
    (hqpass : jsTrim q.text ≠ "" ∨ q.isAgent = true)
    (h0rec : countRecognizing iid ag h₀ = 0)
    (h0fin : countFinalized iid ag h₀ = 0) :
    (∀ ps₁ ps₂, ps = ps₁ ++ ps₂ →
        countRecognizing iid ag (processTextPackets ps₁ h₀) ≤ 1 ∧
        countFinalized iid ag (processTextPackets ps₁ h₀) = 0) ∧
    countFinalized iid ag (processTextPacket q (processTextPackets ps h₀)) = 1 ∧
    countRecognizing iid ag (processTextPacket q (processTextPackets ps h₀)) = 0 := by
  constructor
  · intro ps₁ ps₂ hsplit
    refine processTextPackets_nonfinal_invariant iid ag ps₁ h₀ ?_ (by omega) h0fin
    intro p hp
    exact hps p (by rw [hsplit]; exact List.mem_append_left ps₂ hp)
  · have hinv := processTextPackets_nonfinal_invariant iid ag ps h₀ hps (by omega) h0fin
    obtain ⟨item, hcio⟩ := chatItemOfText_isSome_of q hqpass
    obtain ⟨hty, hiid2, hrec2, hag2⟩ := chatItemOfText_fields hcio
    have hstep := reconcile_final_counts iid ag item (processTextPackets ps h₀) hty
      (hiid2.trans hq.1) (by rw [hrec2, hq.2.2]; rfl) (hag2.trans hq.2.1) hinv.1 hinv.2
    unfold processTextPacket
    rw [hcio]
    exact hstep

/-- Witness for C1: Scenario A concretely — one non-final user packet
then one final user packet leave exactly one finalized item and no
partial for the pair. -/
theorem text_reconciliation_single_item_witness :
    countFinalized "T1" false (processTextPacket ⟨"T1", "u2", "hello there", true, false, 1⟩
        (processTextPackets [⟨"T1", "u1", "hello", false, false, 0⟩] [])) = 1 ∧
    countRecognizing "T1" false (processTextPacket ⟨"T1", "u2", "hello there", true, false, 1⟩
        (processTextPackets [⟨"T1", "u1", "hello", false, false, 0⟩] [])) = 0 :=
  (text_reconciliation_single_item "T1" false [⟨"T1", "u1", "hello", false, false, 0⟩]
      ⟨"T1", "u2", "hello there", true, false, 1⟩ [] (by decide) (by decide)
      (Or.inl (by decide)) (by decide) (by decide)).2

/-! ## C2: the derived latency value is computed at most once -/

/-- Mapping a function that keeps `interactionId` commutes with looking
a record up by interaction id. -/
lemma find?_map_preserving (f : InteractionLatency → InteractionLatency)
    (hpres : ∀ x, (f x).interactionId = x.interactionId) (l : List InteractionLatency)
    (iid : String) :
    (l.map f).find? (fun it => it.interactionId == iid) =
      (l.find? (fun it => it.interactionId == iid)).map f := by
  have hcomp : ((fun it => it.interactionId == iid) ∘ f) =
      (fun it : InteractionLatency => it.interactionId == iid) := by
    funext x
    simp [Function.comp, hpres]
  rw [List.find?_map, hcomp]

/-- Claim C2: the derived latency value of a turn's record changes under
processing a packet ONLY when that packet is an `AUDIO` packet for that
turn id and the record exists with no `firstAudioTimestamp` yet; in
particular, once `firstAudioTimestamp` (and with it `latencyMs`) has
been stamped — making the timestamp truthy — every further packet for
the turn leaves the derived value untouched. -/
theorem latency_derived_once (now : Int) (p : Packet) (st : List InteractionLatency)
    (iid : String) (rec rec' : InteractionLatency)
    (hfind : st.find? (fun it => it.interactionId == iid) = some rec)
    (hfind2 : (processLatency now p st).find? (fun it => it.interactionId == iid) = some rec')
    (hchange : ¬(rec'.latencyMs = rec.latencyMs ∧
        rec'.firstAudioTimestamp = rec.firstAudioTimestamp)) :
    (∃ chunk, p = Packet.audio iid chunk) ∧ numTruthy rec.firstAudioTimestamp = false := by
  have hsame2 : rec = rec' → False := by
    intro h2
    exact hchange ⟨by rw [← h2], by rw [← h2]⟩
  have hsame : st.find? (fun it => it.interactionId == iid) = some rec' → False := by
    intro h2
    rw [hfind] at h2
    injection h2 with h2
    exact hsame2 h2
  have hmap_pres : ∀ f : InteractionLatency → InteractionLatency,
      (∀ x, (f x).interactionId = x.interactionId) →
      (∀ x, (f x).latencyMs = x.latencyMs) →
      (∀ x, (f x).firstAudioTimestamp = x.firstAudioTimestamp) →
      (st.map f).find? (fun it => it.interactionId == iid) = some rec' → False := by
    intro f h1 h2 h3 hf2
    rw [find?_map_preserving f h1 st iid, hfind] at hf2
    injection hf2 with hf2
    exact hchange ⟨by rw [← hf2, h2], by rw [← hf2, h3]⟩
  have hmap_skip : ∀ f : InteractionLatency → InteractionLatency,
      (∀ x, (f x).interactionId = x.interactionId) → f rec = rec →
      (st.map f).find? (fun it => it.interactionId == iid) = some rec' → False := by
    intro f h1 h2 hf2
    rw [find?_map_preserving f h1 st iid, hfind] at hf2
    rw [Option.map_some'] at hf2
    rw [h2] at hf2
    injection hf2 with hf2
    exact hsame2 hf2
  have happend : ∀ newRec : InteractionLatency,
      (st ++ [newRec]).find? (fun it => it.interactionId == iid) = some rec' → False := by
    intro newRec hf2
    rw [List.find?_append, hfind, Option.or_some] at hf2
    injection hf2 with hf2
    exact hsame2 hf2
  cases p with
  | audio iid' chunk =>
    simp only [processLatency] at hfind2
    by_cases hiid' : strTruthy iid' = true
    · rw [if_pos hiid'] at hfind2
      unfold audioLatencyUpdate at hfind2
      by_cases heq : iid' = iid
      · subst heq
        rw [hfind] at hfind2
        dsimp only at hfind2
        by_cases hfat : numTruthy rec.firstAudioTimestamp = true
        · rw [if_neg (by simp [hfat])] at hfind2
          exact absurd hfind2 hsame
        · exact ⟨⟨chunk, rfl⟩, by simpa using hfat⟩
      · cases hfind' : st.find? (fun it => it.interactionId == iid') with
        | none =>
          rw [hfind'] at hfind2
          dsimp only at hfind2
          exact absurd hfind2 hsame
        | some existing =>
          rw [hfind'] at hfind2
          dsimp only at hfind2
          by_cases hfat : numTruthy existing.firstAudioTimestamp = true
          · rw [if_neg (by simp [hfat])] at hfind2
            exact absurd hfind2 hsame
          · rw [if_pos (by simp [hfat])] at hfind2
            have hrec_iid := List.find?_some hfind
            have hrci : rec.interactionId = iid := by simpa using hrec_iid
            refine absurd hfind2 (hmap_skip _ ?_ ?_)
            · intro x
              by_cases hx : (x.interactionId == iid') = true
              · rw [if_pos hx]
              · rw [if_neg hx]
            · have hne : (rec.interactionId == iid') = false := by
                simp [hrci]
                exact fun h => heq h.symm
              rw [if_neg (by simp [hne])]
    · rw [if_neg hiid'] at hfind2
      exact absurd hfind2 hsame
  | newInteraction iid' =>
    simp only [processLatency] at hfind2
    by_cases hiid' : strTruthy iid' = true
    · rw [if_pos hiid'] at hfind2
      unfold newInteractionLatencyUpdate at hfind2
      cases hfind' : st.find? (fun it => it.interactionId == iid') with
      | some existing =>
        rw [hfind'] at hfind2
        exact absurd hfind2 hsame
      | none =>
        rw [hfind'] at hfind2
        exact absurd hfind2 (happend _)
    · rw [if_neg hiid'] at hfind2
      exact absurd hfind2 hsame
  | userSpeechComplete iid' md =>
    simp only [processLatency] at hfind2
    unfold speechCompleteLatencyUpdate at hfind2
    cases hfind' : st.find? (fun it => it.interactionId == iid') with
    | none =>
      rw [hfind'] at hfind2
      exact absurd hfind2 (happend _)
    | some existing =>
      rw [hfind'] at hfind2
      dsimp only at hfind2
      refine absurd hfind2 (hmap_pres _ ?_ ?_ ?_) <;>
        (intro x
         by_cases hx : (x.interactionId == iid') = true
         · rw [if_pos hx]
         · rw [if_neg hx])
  | text tp =>
    simp only [processLatency] at hfind2
    by_cases hcond : (!tp.isAgent && tp.final && strTruthy tp.interactionId) = true
    · rw [if_pos hcond] at hfind2
      unfold textLatencyUpdate at hfind2
      refine absurd hfind2 (hmap_pres _ ?_ ?_ ?_) <;>
        (intro x
         by_cases hx : (x.interactionId == tp.interactionId && !strTruthy x.userText) = true
         · rw [if_pos hx]
         · rw [if_neg hx])
    · rw [if_neg hcond] at hfind2
      exact absurd hfind2 hsame
  | cancelResponse iid' =>
    simp only [processLatency] at hfind2
    exact absurd hfind2 hsame
  | interactionEnd fid iid' d =>
    simp only [processLatency] at hfind2
    exact absurd hfind2 hsame
  | error msg =>
    simp only [processLatency] at hfind2
    exact absurd hfind2 hsame

/-- Witness for C2: the first `AUDIO` packet for turn `T1` stamps
`firstAudioTimestamp` on a record that lacked it — the change is
licensed exactly by the `AUDIO`-with-falsy-timestamp condition. -/
theorem latency_derived_once_witness :
    (∃ chunk, Packet.audio "T1" "c" = Packet.audio "T1" chunk) ∧
    numTruthy (⟨"T1", none, some 100, none, none, "Voice input", none⟩ :
      InteractionLatency).firstAudioTimestamp = false :=
  latency_derived_once 250 (Packet.audio "T1" "c")
    [⟨"T1", none, some 100, none, none, "Voice input", none⟩] "T1"
    ⟨"T1", none, some 100, none, none, "Voice input", none⟩
    ⟨"T1", none, some 100, some 250, some 150, "Voice input", none⟩
    (by decide) (by decide) (by decide)

/-! ## C7: missing credentials reject the request before a session exists -/

/-- Claim C7: when a required credential is absent from both the request
and the server environment — the Inworld API key, or the Assembly.AI
API key while the Assembly.AI STT service is the (possibly defaulted)
selection — `load` answers with an error response and the connections
table is returned unchanged: no session entry, partial or otherwise, is
created. -/
theorem load_rejects_missing_credentials (validationOk : Bool) (sessionId : String)
    (body : LoadBody) (env : ServerEnv) (systemMessageId : String)
    (agentConfig : AgentConfig) (conns : Connections)
    (hmissing : (body.apiKeys.inworldApiKey = "" ∧ env.apiKey = "") ∨
        (jsOrStr body.sttService "assemblyai" = "assemblyai" ∧
         body.apiKeys.assemblyAiApiKey = "" ∧ env.assemblyAIApiKey = "")) :
    (load validationOk sessionId body env systemMessageId agentConfig conns).1.isError = true ∧
    (load validationOk sessionId body env systemMessageId agentConfig conns).2 = conns := by
  cases validationOk with
  | false => simp [load, LoadResult.isError]
  | true =>
    rcases hmissing with ⟨hb, he⟩ | ⟨hstt, hb, he⟩
    · simp only [load, hb, he, Bool.not_true, Bool.false_eq_true, if_false]
      simp [jsOrStr, strTruthy, LoadResult.isError]
    · by_cases hik : strTruthy (jsOrStr body.apiKeys.inworldApiKey env.apiKey) = true
      · simp only [load, Bool.not_true, Bool.false_eq_true, if_false, hik, hstt, hb, he]
        simp [jsOrStr, strTruthy, LoadResult.isError]
      · simp only [load, Bool.not_true, Bool.false_eq_true, if_false]
        rw [if_pos (by simp [Bool.not_eq_true] at hik; simp [hik])]
        simp [LoadResult.isError]

/-- Witness for C7: with no Inworld key in the request or the
environment, the request is rejected and the (empty) table stays
empty. -/
theorem load_rejects_missing_credentials_witness :
    (load true "s1" ⟨"You are Bob.", "alice", "assemblyai", ⟨"", "", ""⟩⟩ ⟨"", "k2", ""⟩
        "m1" ⟨"v1", "a1"⟩ []).1.isError = true ∧
    (load true "s1" ⟨"You are Bob.", "alice", "assemblyai", ⟨"", "", ""⟩⟩ ⟨"", "k2", ""⟩
        "m1" ⟨"v1", "a1"⟩ []).2 = [] :=
  load_rejects_missing_credentials true "s1"
    ⟨"You are Bob.", "alice", "assemblyai", ⟨"", "", ""⟩⟩ ⟨"", "k2", ""⟩
    "m1" ⟨"v1", "a1"⟩ [] (Or.inl ⟨rfl, rfl⟩)

/-! ## C8: the graph cache has a suspension point inside check-then-create -/

/-- Claim C8 is violated by the code: `getTextGraphForSession` (and
`getGraphForSTTService`) `await` the graph creation BETWEEN the cache
existence check and the cache insertion, so the check and the insertion
are not atomic from the scheduler's perspective.  Under the legal
interleaving in which two lookups for the same voice id both run their
check before either inserts, `InworldGraphWrapper.create` is invoked
twice for that key — two graph handles are constructed (and the second
`set` overwrites the first handle, leaking it). -/
theorem graph_cache_race_double_create :
    (twoConcurrentGraphLookups ⟨[], 0, []⟩ "voice-1").creations = ["voice-1", "voice-1"] ∧
    (twoConcurrentGraphLookups ⟨[], 0, []⟩ "voice-1").cache = [("voice-1", 1)] := by
  decide

/-! ## C9: starting capture while active stacks a second timer -/

/-- Claim C9 is violated by the code: `startRecording` carries no guard
on `isRecording`, so a second invocation while capture is active
acquires a second media stream and registers a second `setInterval`
timer, overwriting the module-level handles; a subsequent
`stopRecording` clears only the newest timer, leaving the first one
running — instead of the claimed no-op that keeps exactly one timer and
one source.  The stale-snapshot path of `handleSpeakClick`
(`observedIsRecording = false` while recording is active) reaches
exactly this double start. -/
theorem start_recording_stacks_timers :
    (startRecording true true initialCaptureState).isRecording = true ∧
    (startRecording true true (startRecording true true
        initialCaptureState)).activeTimers.length = 2 ∧
    (startRecording true true (startRecording true true
        initialCaptureState)).activeStreams.length = 2 ∧
    (handleSpeakClick true true false (startRecording true true
        initialCaptureState)).activeTimers.length = 2 ∧
    (stopRecording (startRecording true true (startRecording true true
        initialCaptureState))).activeTimers.length = 1 := by
  decide
